import Mathlib

/-!
# Pocket-Concierge: a shallow embedding of the DNS query pipeline

This file embeds, in Lean 4, the data model and the operations of the
Pocket-Concierge home DNS server (Go): the typed configuration and its
validation (internal/config/config.go), the local resolver
(internal/dns/resolver.go), the request handler (internal/dns/handler.go),
the host cache (internal/dns/cache.go) and the upstream client pool
(internal/dns/secureclient.go).  Strings are modelled as Lean strings;
the Go standard-library helpers used by the code (strings.ToLower,
strings.TrimSuffix, strings.TrimSpace, net.ParseIP, dns.Fqdn) are modelled
on the ASCII fragment, which is the fragment DNS names and the
configuration exercise.  Network I/O is modelled by an explicit oracle
argument giving each upstream's reply, and the file system by an explicit
outcome value, so that every definition is executable.
-/

namespace PocketConcierge

/-! ## Models of the Go standard-library helpers -/

/-- Model of Go `unicode.IsSpace` restricted to ASCII white space. -/
def isGoSpace (c : Char) : Bool :=
  c = ' ' || c = '\t' || c = '\n' || c = '\x0b' || c = '\x0c' || c = '\r'

/-- ASCII lower-casing of one character, as Go `strings.ToLower` acts on
ASCII: `A`..`Z` map 32 code points up, everything else is unchanged. -/
def goLowerChar (c : Char) : Char :=
  if 'A' ≤ c ∧ c ≤ 'Z' then Char.ofNat (c.toNat + 32) else c

/-- ASCII upper-casing of one character, as Go `strings.ToUpper` acts on
ASCII: `a`..`z` map 32 code points down, everything else is unchanged. -/
def goUpperChar (c : Char) : Char :=
  if 'a' ≤ c ∧ c ≤ 'z' then Char.ofNat (c.toNat - 32) else c

/-- Model of Go `strings.ToLower` (ASCII fragment). -/
def goToLower (s : String) : String := ⟨s.data.map goLowerChar⟩

/-- Model of Go `strings.ToUpper` (ASCII fragment). -/
def goToUpper (s : String) : String := ⟨s.data.map goUpperChar⟩

/-- Model of Go `strings.HasSuffix`. -/
def goHasSuffix (s suffix : String) : Bool :=
  suffix.data.isSuffixOf s.data

/-- Model of Go `strings.TrimSuffix`: drop `suffix` once from the end of
`s` when present, otherwise return `s` unchanged. -/
def goTrimSuffix (s suffix : String) : String :=
  if goHasSuffix s suffix then ⟨s.data.take (s.data.length - suffix.data.length)⟩ else s

/-- Model of Go `strings.TrimSpace` (ASCII white space). -/
def goTrimSpace (s : String) : String :=
  ⟨((s.data.dropWhile isGoSpace).reverse.dropWhile isGoSpace).reverse⟩

/-- Model of Go `strings.Contains(s, c)` for a one-character needle, the
only shape the code uses (`strings.Contains(name, ".")`). -/
def goContainsChar (s : String) (c : Char) : Bool := s.data.contains c

/-- Model of `dns.Fqdn`: append a trailing dot unless one is present. -/
def goFqdn (s : String) : String :=
  if goHasSuffix s "." then s else s ++ "."

/-- Go's `uint32(i)` conversion of an `int`, as a natural number. -/
def uint32OfInt (i : Int) : Nat := (i % 4294967296).toNat

/-- Split a character list at every occurrence of `sep`, like Go
`strings.Split` with a one-character separator. -/
def splitOnChar (sep : Char) : List Char → List (List Char)
  | [] => [[]]
  | c :: cs =>
    match splitOnChar sep cs with
    | [] => [[]]
    | g :: gs => if c = sep then [] :: g :: gs else (c :: g) :: gs

/-- Split a character list at every occurrence of `::`, like Go
`strings.Split` with separator `"::"`, scanning left to right. -/
def splitOnColonColon : List Char → List (List Char)
  | [] => [[]]
  | ':' :: ':' :: cs => [] :: splitOnColonColon cs
  | c :: cs =>
    match splitOnColonColon cs with
    | [] => [[]]
    | g :: gs => (c :: g) :: gs

/-- One decimal octet of a dotted-quad IPv4 literal: digits only, at most
three of them, no leading zero (Go rejects leading zeros), value ≤ 255. -/
def validOctet (l : List Char) : Bool :=
  l ≠ [] && l.all (·.isDigit) && l.length ≤ 3 &&
  (l.length == 1 || l.head? ≠ some '0') &&
  l.foldl (fun n c => n * 10 + (c.toNat - 48)) 0 ≤ 255

/-- IPv4 dotted-quad validity, modelling the IPv4 case of `net.ParseIP`. -/
def isValidIPv4 (s : String) : Bool :=
  let fs := splitOnChar '.' s.data
  fs.length == 4 && fs.all validOctet

/-- One 16-bit group of an IPv6 literal: one to four hex digits. -/
def validV6Group (g : List Char) : Bool :=
  g ≠ [] && g.length ≤ 4 &&
  g.all (fun c => c.isDigit || ('a' ≤ c && c ≤ 'f') || ('A' ≤ c && c ≤ 'F'))

/-- IPv6 validity, modelling the IPv6 case of `net.ParseIP` on the
canonical colon-separated forms (with at most one `::` gap); the embedded
IPv4 tail and zone suffixes, which the repository never uses, are not
modelled. -/
def isValidIPv6 (s : String) : Bool :=
  match splitOnColonColon s.data with
  | [whole] =>
    let gs := splitOnChar ':' whole
    gs.length == 8 && gs.all validV6Group
  | [l, r] =>
    let gl := if l = [] then [] else splitOnChar ':' l
    let gr := if r = [] then [] else splitOnChar ':' r
    gl.all validV6Group && gr.all validV6Group && gl.length + gr.length ≤ 7
  | _ => false

/-- The first of `.` or `:` occurring in the string decides whether
`net.ParseIP` attempts an IPv4 or an IPv6 parse, as in Go's scanner. -/
def firstIPSep : List Char → Option Bool
  | [] => none
  | c :: rest => if c = '.' then some true else if c = ':' then some false else firstIPSep rest

/-- Model of `net.ParseIP(s) != nil`: the validity of an IP literal. -/
def isValidIP (s : String) : Bool :=
  match firstIPSep s.data with
  | some true => isValidIPv4 s
  | some false => isValidIPv6 s
  | none => false

/-! ## Configuration data model (internal/config/config.go) -/

/-- `ServerConfig` from config.go: bind port and address. -/
structure ServerConfig where
  port : Int
  address : String
  deriving DecidableEq, Repr

/-- `DNSConfig` from config.go.  The `blockList` field (`block_list` in
YAML) is present in the repository's configuration tests
(`cfg.DNS.BlockList` in TestConfigIsBlocked) and in the sample
configuration file, though the copy of config.go in the snapshot predates
it. -/
structure DNSConfig where
  ttl : Int
  enableRecursion : Bool
  cacheSize : Int
  blockList : List String
  deriving DecidableEq, Repr

/-- `UpstreamServer` from config.go. -/
structure UpstreamServer where
  name : String
  address : String
  protocol : String
  port : Int
  path : String
  verify : Bool
  deriving DecidableEq, Repr

/-- `HostEntry` from config.go: one hostname → addresses mapping. -/
structure HostEntry where
  hostname : String
  ipv4 : List String
  ipv6 : List String
  deriving DecidableEq, Repr

/-- `Config` from config.go.  The `homeDNSDomain` field
(`home_dns_domain` in YAML) is read by cache.go and set throughout the
repository's tests, though the copy of config.go in the snapshot predates
it. -/
structure Config where
  server : ServerConfig
  dns : DNSConfig
  hosts : List HostEntry
  upstream : List UpstreamServer
  logLevel : String
  homeDNSDomain : String
  deriving DecidableEq, Repr

/-- `GetHostByName` from config.go: the first configured host whose
`hostname` field equals the argument exactly. -/
def GetHostByName (c : Config) (hostname : String) : Option HostEntry :=
  c.hosts.find? (fun host => host.hostname == hostname)

/-- `DefaultConfig` from config.go (with the default home domain `home`
attested by TestDefaultConfig). -/
def DefaultConfig : Config :=
  { server := { port := 53, address := "0.0.0.0" }
    dns := { ttl := 300, enableRecursion := true, cacheSize := 1000, blockList := [] }
    upstream :=
      [ { name := "Cloudflare DoH", address := "1.1.1.1", protocol := "https",
          port := 0, path := "/dns-query", verify := true }
      , { name := "Google DoT", address := "8.8.8.8", protocol := "tls",
          port := 853, path := "", verify := true } ]
    logLevel := "info"
    homeDNSDomain := "home"
    hosts := [] }

/-- The protocol strings accepted by `Validate` (the `validProtocols` map
literal in config.go). -/
def validProtocols : List String := ["udp", "tcp", "tls", "https", "quic"]

/-- The log levels accepted by `Validate` (the `validLevels` map literal
in config.go). -/
def validLogLevels : List String := ["debug", "info", "warn", "error"]

/-- The in-place defaulting `Validate` applies to one upstream server:
an omitted port (0) becomes the protocol's default (udp/tcp 53, tls 853,
https 443, quic 853), and an https upstream with an empty path gets
`/dns-query`. -/
def normalizeUpstream (u : UpstreamServer) : UpstreamServer :=
  let port : Int :=
    if u.port = 0 then
      match u.protocol with
      | "udp" => 53
      | "tcp" => 53
      | "tls" => 853
      | "https" => 443
      | "quic" => 853
      | _ => u.port
    else u.port
  let path := if u.protocol = "https" ∧ u.path = "" then "/dns-query" else u.path
  { u with port := port, path := path }

/-- The upstream-server loop of `Validate`: stops at the first empty
address or unknown protocol, otherwise applies the port and path
defaults to each server in order. -/
def validateUpstreams : Nat → List UpstreamServer → Except String (List UpstreamServer)
  | _, [] => Except.ok []
  | i, u :: rest =>
    if u.address = "" then
      Except.error ("upstream server " ++ toString i ++ ": address cannot be empty")
    else if ¬ (validProtocols.contains u.protocol) then
      Except.error ("upstream server " ++ toString i ++ ": invalid protocol " ++
        u.protocol ++ " (must be udp, tcp, tls, https, or quic)")
    else
      match validateUpstreams (i + 1) rest with
      | Except.error e => Except.error e
      | Except.ok rest' => Except.ok (normalizeUpstream u :: rest')

/-- The per-host address loop of `Validate`: the first address in the
list that `net.ParseIP` rejects, if any. -/
def firstInvalidIP : List String → Option String
  | [] => none
  | ip :: rest => if isValidIP ip then firstInvalidIP rest else some ip

/-- The host-entry loop of `Validate`: an empty hostname, an address that
`net.ParseIP` rejects, or an entry with no addresses at all is an error. -/
def validateHosts : Nat → List HostEntry → Except String Unit
  | _, [] => Except.ok ()
  | i, h :: rest =>
    if h.hostname = "" then
      Except.error ("host entry " ++ toString i ++ ": hostname cannot be empty")
    else
      match firstInvalidIP h.ipv4 with
      | some ip => Except.error ("host entry " ++ h.hostname ++ ": invalid IPv4 address: " ++ ip)
      | none =>
        match firstInvalidIP h.ipv6 with
        | some ip => Except.error ("host entry " ++ h.hostname ++ ": invalid IPv6 address: " ++ ip)
        | none =>
          if h.ipv4 = [] ∧ h.ipv6 = [] then
            Except.error ("host entry " ++ h.hostname ++ ": must have at least one IP address")
          else validateHosts (i + 1) rest

/-- `Validate` from config.go: checks the server port and address, walks
the upstream servers (rejecting unknown protocols and assigning default
ports and DoH paths in place), checks every host entry, and finally the
log level.  The returned configuration carries the defaulted upstream
list, mirroring the in-place mutation in Go. -/
def Validate (c : Config) : Except String Config :=
  if c.server.port < 1 ∨ c.server.port > 65535 then
    Except.error ("invalid port: " ++ toString c.server.port ++ " (must be 1-65535)")
  else if ¬ isValidIP c.server.address ∧ c.server.address ≠ "0.0.0.0" then
    Except.error ("invalid server address: " ++ c.server.address)
  else
    match validateUpstreams 0 c.upstream with
    | Except.error e => Except.error e
    | Except.ok ups =>
      match validateHosts 0 c.hosts with
      | Except.error e => Except.error e
      | Except.ok _ =>
        if validLogLevels.contains c.logLevel then
          Except.ok { c with upstream := ups }
        else
          Except.error ("invalid log level: " ++ c.logLevel ++
            " (must be debug, info, warn, or error)")

/-- Modelled from the spec: `Config.IsBlocked` is not in the snapshot's
config.go (only its test, TestConfigIsBlocked, is present).  Following
spec §4.2 and the test: lowercase the queried domain, strip one trailing
dot, and report a match when it equals a blocklist pattern or ends with
`"." + pattern`. -/
def IsBlocked (c : Config) (domain : String) : Bool :=
  let d := goToLower (goTrimSuffix domain ".")
  c.dns.blockList.any (fun p => d == p || goHasSuffix d ("." ++ p))

/-- The possible outcomes of the YAML stage of `LoadConfig`: the file text
fails to unmarshal, or it unmarshals (over the defaults) to a
configuration value. -/
inductive YamlOutcome where
  | malformed
  | parsed (c : Config)
  deriving DecidableEq

/-- The possible outcomes of the file-system stage of `LoadConfig`: the
file does not exist, it exists but cannot be read, or it is read. -/
inductive FileOutcome where
  | absent
  | unreadable
  | content (y : YamlOutcome)
  deriving DecidableEq

/-- The error cases `LoadConfig` can report. -/
inductive LoadError where
  | notFound
  | readFailed
  | parseFailed
  | invalid (msg : String)
  deriving DecidableEq

/-- `LoadConfig` from config.go, with the file system and the YAML
unmarshaller abstracted into a `FileOutcome` (a `parsed` outcome stands
for the configuration obtained by unmarshalling the file over
`DefaultConfig`).  A missing file returns the default configuration
together with a not-found error; every other failure returns no
configuration; a parsed configuration is validated, and the validated
value is returned. -/
def LoadConfig (f : FileOutcome) : Option Config × Option LoadError :=
  match f with
  | FileOutcome.absent => (some DefaultConfig, some LoadError.notFound)
  | FileOutcome.unreadable => (none, some LoadError.readFailed)
  | FileOutcome.content YamlOutcome.malformed => (none, some LoadError.parseFailed)
  | FileOutcome.content (YamlOutcome.parsed c) =>
    match Validate c with
    | Except.error e => (none, some (LoadError.invalid e))
    | Except.ok c' => (some c', none)

/-! ## DNS messages (the fragment of github.com/miekg/dns the code uses) -/

/-- DNS query types distinguished by the handler: A, AAAA, ANY, and all
others (carried with their numeric code). -/
inductive QType where
  | A
  | AAAA
  | ANY
  | other (code : Nat)
  deriving DecidableEq, Repr

/-- A resource record as the handler builds it: owner name, type, TTL and
the address data (kept as the configured literal; the class is always
INET and is omitted). -/
structure RR where
  name : String
  rtype : QType
  ttl : Nat
  rdata : String
  deriving DecidableEq, Repr

/-- One entry of a request's question section. -/
structure Question where
  name : String
  qtype : QType
  deriving DecidableEq, Repr

/-- An upstream's reply message: its response code and answer section
(the only parts the handler reads). -/
structure UpstreamMsg where
  rcode : Nat
  answer : List RR
  deriving DecidableEq, Repr

/-- The outcome of `SecureClient.Query` for one upstream: a non-nil
error, or no error together with a possibly nil message. -/
inductive QueryResult where
  | err
  | ok (m : Option UpstreamMsg)
  deriving DecidableEq

/-- The network, as the handler observes it: what each upstream answers
to each question. -/
def UpstreamOracle := UpstreamServer → Question → QueryResult

/-- A decoded request: transaction id and question section. -/
structure DNSRequest where
  id : Nat
  questions : List Question
  deriving DecidableEq, Repr

/-- The response the handler writes: the reply id, the authoritative
flag, the response code and the answer section. -/
structure DNSResponse where
  id : Nat
  authoritative : Bool
  rcode : Nat
  answer : List RR
  deriving DecidableEq, Repr

/-- Response code 0, NOERROR. -/
def RcodeSuccess : Nat := 0

/-- Response code 3, NXDOMAIN (NAME_ERROR). -/
def RcodeNameError : Nat := 3

/-! ## Local resolution (internal/dns/resolver.go, handler.go) -/

/-- `ResolveLocal` from resolver.go: normalize (trim space, lowercase),
look the name up directly, then retry with `.home` appended when the
name does not end in `.home`, and with a trailing `.home` stripped when
it does. -/
def ResolveLocal (c : Config) (hostname : String) : Option HostEntry :=
  let h := goToLower (goTrimSpace hostname)
  match GetHostByName c h with
  | some host => some host
  | none =>
    if ¬ goHasSuffix h ".home" then GetHostByName c (h ++ ".home")
    else GetHostByName c (goTrimSuffix h ".home")

/-- `createARecord` from handler.go: reject an address `net.ParseIP`
cannot parse, otherwise build an A record owned by the query name as
asked, with TTL `uint32(config.DNS.TTL)`. -/
def createARecord (c : Config) (name ip : String) : Option RR :=
  if ¬ isValidIP ip then none
  else some { name := name, rtype := QType.A, ttl := uint32OfInt c.dns.ttl, rdata := ip }

/-- `createAAAARecord` from handler.go, the AAAA counterpart. -/
def createAAAARecord (c : Config) (name ip : String) : Option RR :=
  if ¬ isValidIP ip then none
  else some { name := name, rtype := QType.AAAA, ttl := uint32OfInt c.dns.ttl, rdata := ip }

/-- `resolveLocally` from handler.go: lowercase the query name and strip
its trailing dot, resolve it to a host entry, and materialize the
records the question type asks for (A from ipv4, AAAA from ipv6, ANY
both, nothing for any other type). -/
def resolveLocally (c : Config) (q : Question) : List RR :=
  let hostname := goToLower (goTrimSuffix q.name ".")
  match ResolveLocal c hostname with
  | none => []
  | some host =>
    match q.qtype with
    | QType.A => host.ipv4.filterMap (createARecord c q.name)
    | QType.AAAA => host.ipv6.filterMap (createAAAARecord c q.name)
    | QType.ANY =>
      host.ipv4.filterMap (createARecord c q.name) ++
      host.ipv6.filterMap (createAAAARecord c q.name)
    | QType.other _ => []

/-! ## Upstream forwarding (internal/dns/handler.go) -/

/-- The upstream loop of `forwardUpstream`, instrumented with the list of
upstreams actually queried: each upstream is tried in order; an error or
a nil response moves on to the next; a response with a non-empty answer
section is returned at once; the loop returns nothing when it runs out. -/
def forwardUpstreamAux (oracle : UpstreamOracle) (q : Question) :
    List UpstreamServer → List RR × List UpstreamServer
  | [] => ([], [])
  | u :: rest =>
    match oracle u q with
    | QueryResult.err =>
      let r := forwardUpstreamAux oracle q rest
      (r.1, u :: r.2)
    | QueryResult.ok none =>
      let r := forwardUpstreamAux oracle q rest
      (r.1, u :: r.2)
    | QueryResult.ok (some m) =>
      if m.answer.length > 0 then (m.answer, [u])
      else
        let r := forwardUpstreamAux oracle q rest
        (r.1, u :: r.2)

/-- `forwardUpstream` from handler.go: the answers of the first upstream
that replies with a non-nil message carrying at least one answer record. -/
def forwardUpstream (c : Config) (oracle : UpstreamOracle) (q : Question) : List RR :=
  (forwardUpstreamAux oracle q c.upstream).1

/-- The upstreams `forwardUpstream` queries, in order. -/
def forwardAttempts (c : Config) (oracle : UpstreamOracle) (q : Question) : List UpstreamServer :=
  (forwardUpstreamAux oracle q c.upstream).2

/-- The per-question step of `ServeDNS`: local resolution first; if it
produced answers they are used; otherwise, when recursion is enabled,
the question is forwarded upstream.  Returns the answers appended for
the question together with the upstreams queried for it. -/
def handleQuestion (c : Config) (oracle : UpstreamOracle) (q : Question) :
    List RR × List UpstreamServer :=
  let localAnswers := resolveLocally c q
  if localAnswers.length > 0 then (localAnswers, [])
  else if c.dns.enableRecursion then forwardUpstreamAux oracle q c.upstream
  else ([], [])

/-- `ServeDNS` from handler.go: reply with the request's id, the
authoritative bit set, response code NOERROR (`SetReply`), and the
concatenation of each question's answers. -/
def ServeDNS (c : Config) (oracle : UpstreamOracle) (r : DNSRequest) : DNSResponse :=
  { id := r.id
    authoritative := true
    rcode := RcodeSuccess
    answer := (r.questions.map (fun q => (handleQuestion c oracle q).1)).flatten }

/-- All upstreams `ServeDNS` queries while serving a request, in order. -/
def serveAttempts (c : Config) (oracle : UpstreamOracle) (r : DNSRequest) : List UpstreamServer :=
  (r.questions.map (fun q => (handleQuestion c oracle q).2)).flatten

/-- Modelled from the spec: the block-check step of the query pipeline
(spec §4.4 step 2a) is not in the snapshot's handler.go.  A question
whose name `IsBlocked` accepts is answered with nothing and no upstream
is consulted; otherwise the question is handled as in `handleQuestion`. -/
def handleQuestionBlocking (c : Config) (oracle : UpstreamOracle) (q : Question) :
    Bool × List RR × List UpstreamServer :=
  if IsBlocked c q.name then (true, [], [])
  else
    let r := handleQuestion c oracle q
    (false, r.1, r.2)

/-- Modelled from the spec: the request pipeline of §4.4 with the block
check in place — the response is authoritative, carries NXDOMAIN
(NAME_ERROR) as soon as some question matched the blocklist and NOERROR
otherwise, and concatenates the per-question answers. -/
def ServeDNSBlocking (c : Config) (oracle : UpstreamOracle) (r : DNSRequest) : DNSResponse :=
  let results := r.questions.map (handleQuestionBlocking c oracle)
  { id := r.id
    authoritative := true
    rcode := if results.any (fun t => t.1) then RcodeNameError else RcodeSuccess
    answer := (results.map (fun t => t.2.1)).flatten }

/-! ## The host cache (internal/dns/cache.go) -/

/-- The state of a `HostCache`: the name → host table and the prebuilt
record table, each modelled as the ordered list of map insertions (Go
map assignment overwrites, so a lookup takes the last write; record
insertions append, so a key's records keep insertion order). -/
structure HostCacheState where
  hosts : List (String × HostEntry)
  records : List (String × RR)
  deriving DecidableEq, Repr

/-- Go map lookup over the insertion list: the last value written at the
key. -/
def mapLookup {α : Type} (m : List (String × α)) (k : String) : Option α :=
  (m.reverse.find? (fun p => p.1 == k)).map (fun p => p.2)

/-- The record slice stored at a key: every record appended at it, in
order. -/
def recordsLookup (m : List (String × RR)) (k : String) : List RR :=
  (m.filter (fun p => p.1 == k)).map (fun p => p.2)

/-- `buildRecords` from cache.go: for each parseable IPv4 an A record
owned by `dns.Fqdn(fullHostname)` with TTL `uint32(ttl)`, appended under
both the full and the short `:A` key; likewise AAAA records from the
IPv6 list. -/
def buildRecords (shortName fullHostname : String) (host : HostEntry) (ttl : Int) :
    List (String × RR) :=
  let aRecords := host.ipv4.filterMap (fun ip =>
    if isValidIP ip then
      some ({ name := goFqdn fullHostname, rtype := QType.A,
              ttl := uint32OfInt ttl, rdata := ip } : RR)
    else none)
  let aaaaRecords := host.ipv6.filterMap (fun ip =>
    if isValidIP ip then
      some ({ name := goFqdn fullHostname, rtype := QType.AAAA,
              ttl := uint32OfInt ttl, rdata := ip } : RR)
    else none)
  (aRecords.map (fun rr =>
    [(goToLower fullHostname ++ ":A", rr), (goToLower shortName ++ ":A", rr)])).flatten ++
  (aaaaRecords.map (fun rr =>
    [(goToLower fullHostname ++ ":AAAA", rr), (goToLower shortName ++ ":AAAA", rr)])).flatten

/-- `Rebuild` from cache.go: for every configured host, normalize its
hostname; a name containing a dot is taken as already qualified, a bare
name gets `"." + home_dns_domain` (default `home`) appended.  The host is
indexed under the short and full names, each with and without a trailing
dot, and its records are prebuilt. -/
def cacheRebuild (cfg : Config) : HostCacheState :=
  let homeDomain := if cfg.homeDNSDomain = "" then "home" else cfg.homeDNSDomain
  cfg.hosts.foldl
    (fun st host =>
      let normalizedName := goToLower (goTrimSuffix host.hostname ".")
      let fullHostname :=
        if goContainsChar normalizedName '.' then normalizedName
        else normalizedName ++ "." ++ homeDomain
      { hosts := st.hosts ++
          [(normalizedName, host), (normalizedName ++ ".", host),
           (fullHostname, host), (fullHostname ++ ".", host)]
        records := st.records ++ buildRecords normalizedName fullHostname host cfg.dns.ttl })
    { hosts := [], records := [] }

/-- `Lookup` from cache.go: trim space, lowercase, and look the name up
in the host table. -/
def cacheLookup (st : HostCacheState) (hostname : String) : Option HostEntry :=
  mapLookup st.hosts (goToLower (goTrimSpace hostname))

/-- `LookupRecords` from cache.go: strip the trailing dot, lowercase,
and return the records stored under the `name:A` or `name:AAAA` key;
every other query type gets nothing. -/
def LookupRecords (st : HostCacheState) (hostname : String) (qtype : QType) : List RR :=
  let normalizedName := goToLower (goTrimSuffix hostname ".")
  match qtype with
  | QType.A => recordsLookup st.records (normalizedName ++ ":A")
  | QType.AAAA => recordsLookup st.records (normalizedName ++ ":AAAA")
  | _ => []

/-- `Resolver.ResolveFast` from the cache-backed resolver: a lookup in
the prebuilt record table of the cache built from the configuration. -/
def ResolveFast (cfg : Config) (hostname : String) (qtype : QType) : List RR :=
  LookupRecords (cacheRebuild cfg) hostname qtype

/-! ## The upstream client pool (internal/dns/secureclient.go) -/

/-- The TLS settings a pooled DoT client carries. -/
structure TLSConf where
  serverName : String
  insecureSkipVerify : Bool
  minVersion : Nat
  deriving DecidableEq, Repr

/-- A pooled `dns.Client`: transport, exchange timeout (seconds), and
TLS settings for DoT. -/
structure DNSClient where
  net : String
  timeoutSec : Nat
  tlsConfig : Option TLSConf
  deriving DecidableEq, Repr

/-- The pool key of `getOrCreateClient`:
`fmt.Sprintf("%s:%s:%d", protocol, address, port)`. -/
def clientKey (u : UpstreamServer) : String :=
  u.protocol ++ ":" ++ u.address ++ ":" ++ toString u.port

/-- The client `getOrCreateClient` builds on a pool miss: UDP/TCP clients
with a 3 s timeout, DoT clients over `tcp-tls` with a 5 s timeout, SNI
set to the upstream address and certificate checks controlled by
`verify`; anything else falls back to a UDP client. -/
def newDNSClient (u : UpstreamServer) : DNSClient :=
  match u.protocol with
  | "udp" => { net := u.protocol, timeoutSec := 3, tlsConfig := none }
  | "tcp" => { net := u.protocol, timeoutSec := 3, tlsConfig := none }
  | "tls" =>
    { net := "tcp-tls", timeoutSec := 5,
      tlsConfig := some { serverName := u.address, insecureSkipVerify := ¬ u.verify,
                          minVersion := 12 } }
  | _ => { net := "udp", timeoutSec := 3, tlsConfig := none }

/-- The client pool: the map from pool keys to clients, as its list of
entries (keys are unique because an entry is only ever added on a miss). -/
abbrev ClientPool := List (String × DNSClient)

/-- Lookup in the client pool. -/
def poolFind (pool : ClientPool) (k : String) : Option DNSClient :=
  ((List.find? (fun p => p.1 == k)) pool).map (fun p => p.2)

/-- `getOrCreateClient` from secureclient.go, with the double-checked
locking collapsed into the sequential state passing: return the pooled
client for the upstream's key when present, otherwise create one, store
it, and return it. -/
def getOrCreateClient (pool : ClientPool) (u : UpstreamServer) : DNSClient × ClientPool :=
  let key := clientKey u
  match poolFind pool key with
  | some client => (client, pool)
  | none =>
    let client := newDNSClient u
    (client, pool ++ [(key, client)])

/-! ## Helper lemmas about the string models -/

theorem toNat_ofNat_small (n : Nat) (h : n < 55296) : (Char.ofNat n).toNat = n := by
  have hv : n.isValidChar := Or.inl h
  simp [Char.ofNat, hv, Char.ofNatAux, Char.toNat, UInt32.ofNat', UInt32.toNat]

theorem upper_range_iff (c : Char) : ('A' ≤ c ∧ c ≤ 'Z') ↔ (65 ≤ c.toNat ∧ c.toNat ≤ 90) := by
  rw [Char.le_def, Char.le_def, UInt32.le_def, UInt32.le_def]
  simp [Char.toNat, UInt32.toNat, BitVec.le_def]

theorem lower_range_iff (c : Char) : ('a' ≤ c ∧ c ≤ 'z') ↔ (97 ≤ c.toNat ∧ c.toNat ≤ 122) := by
  rw [Char.le_def, Char.le_def, UInt32.le_def, UInt32.le_def]
  simp [Char.toNat, UInt32.toNat, BitVec.le_def]

theorem goLowerChar_idem (c : Char) : goLowerChar (goLowerChar c) = goLowerChar c := by
  unfold goLowerChar
  by_cases h : 'A' ≤ c ∧ c ≤ 'Z'
  · have hn := (upper_range_iff c).mp h
    have ht : (Char.ofNat (c.toNat + 32)).toNat = c.toNat + 32 :=
      toNat_ofNat_small _ (by omega)
    have hno : ¬ ('A' ≤ Char.ofNat (c.toNat + 32) ∧ Char.ofNat (c.toNat + 32) ≤ 'Z') := by
      rw [upper_range_iff, ht]; omega
    simp [h, hno]
  · simp [h]

theorem goLowerChar_goUpperChar (c : Char) : goLowerChar (goUpperChar c) = goLowerChar c := by
  unfold goUpperChar
  by_cases h : 'a' ≤ c ∧ c ≤ 'z'
  · have hn := (lower_range_iff c).mp h
    have ht : (Char.ofNat (c.toNat - 32)).toNat = c.toNat - 32 :=
      toNat_ofNat_small _ (by omega)
    have h1 : 'A' ≤ Char.ofNat (c.toNat - 32) ∧ Char.ofNat (c.toNat - 32) ≤ 'Z' := by
      rw [upper_range_iff, ht]; omega
    have h2 : ¬ ('A' ≤ c ∧ c ≤ 'Z') := by
      rw [upper_range_iff]; omega
    simp [h]
    unfold goLowerChar
    simp [h1, h2, ht]
    have harith : c.toNat - 32 + 32 = c.toNat := by omega
    rw [harith, Char.ofNat_toNat]
  · simp [h]

theorem goLowerChar_dot_iff (c : Char) : goLowerChar c = '.' ↔ c = '.' := by
  unfold goLowerChar
  by_cases h : 'A' ≤ c ∧ c ≤ 'Z'
  · obtain ⟨hn1, hn2⟩ := (upper_range_iff c).mp h
    have ht : (Char.ofNat (c.toNat + 32)).toNat = c.toNat + 32 :=
      toNat_ofNat_small _ (by simp only [Char.toNat] at hn1 hn2 ⊢; omega)
    simp only [h, and_self, if_pos]
    constructor
    · intro he
      exfalso
      have hc : (Char.ofNat (c.toNat + 32)).toNat = ('.' : Char).toNat := by rw [he]
      rw [ht] at hc
      have hd : ('.' : Char).toNat = 46 := rfl
      rw [hd] at hc
      simp only [Char.toNat] at hn1 hn2 hc
      omega
    · intro he
      exfalso
      subst he
      have hd : ('.' : Char).toNat = 46 := rfl
      rw [hd] at hn1
      omega
  · simp [h]

theorem goUpperChar_dot_iff (c : Char) : goUpperChar c = '.' ↔ c = '.' := by
  unfold goUpperChar
  by_cases h : 'a' ≤ c ∧ c ≤ 'z'
  · obtain ⟨hn1, hn2⟩ := (lower_range_iff c).mp h
    have ht : (Char.ofNat (c.toNat - 32)).toNat = c.toNat - 32 :=
      toNat_ofNat_small _ (by simp only [Char.toNat] at hn1 hn2 ⊢; omega)
    simp only [h, and_self, if_pos]
    constructor
    · intro he
      exfalso
      have hc : (Char.ofNat (c.toNat - 32)).toNat = ('.' : Char).toNat := by rw [he]
      rw [ht] at hc
      have hd : ('.' : Char).toNat = 46 := rfl
      rw [hd] at hc
      simp only [Char.toNat] at hn1 hn2 hc
      omega
    · intro he
      exfalso
      subst he
      have hd : ('.' : Char).toNat = 46 := rfl
      rw [hd] at hn1
      omega
  · simp [h]

theorem singleton_suffix_concat (a y : Char) (xs : List Char) :
    [a] <:+ (xs ++ [y]) ↔ y = a := by
  constructor
  · rintro ⟨t, ht⟩
    have := (List.append_inj' ht (by simp)).2
    simpa [eq_comm] using this
  · rintro rfl
    exact ⟨xs, rfl⟩

theorem hasSuffix_dot_map (f : Char → Char) (hf : ∀ c, f c = '.' ↔ c = '.') (l : List Char) :
    goHasSuffix ⟨l.map f⟩ "." = goHasSuffix ⟨l⟩ "." := by
  unfold goHasSuffix
  rw [Bool.eq_iff_iff, List.isSuffixOf_iff_suffix, List.isSuffixOf_iff_suffix]
  show (".").data <:+ l.map f ↔ (".").data <:+ l
  rw [show ("." : String).data = ['.'] from rfl]
  induction l using List.reverseRecOn with
  | nil => simp
  | append_singleton xs y _ =>
    rw [List.map_append]
    simp only [List.map_cons, List.map_nil]
    rw [singleton_suffix_concat]
    rw [singleton_suffix_concat]
    exact hf y

theorem trimDot_map (f : Char → Char) (hf : ∀ c, f c = '.' ↔ c = '.') (l : List Char) :
    goTrimSuffix ⟨l.map f⟩ "." = ⟨(goTrimSuffix ⟨l⟩ ".").data.map f⟩ := by
  unfold goTrimSuffix
  rw [hasSuffix_dot_map f hf]
  by_cases h : goHasSuffix ⟨l⟩ "." = true
  · simp only [h, if_pos]
    apply congrArg String.mk
    simp [List.map_take]
  · simp only [h, Bool.false_eq_true, if_neg, not_false_iff]

theorem normalizeQuery_upper (s : String) :
    goToLower (goTrimSuffix (goToUpper s) ".") = goToLower (goTrimSuffix s ".") := by
  show goToLower (goTrimSuffix ⟨s.data.map goUpperChar⟩ ".") = _
  rw [trimDot_map goUpperChar goUpperChar_dot_iff]
  unfold goToLower
  apply congrArg String.mk
  rw [List.map_map]
  exact List.map_congr_left (fun c _ => goLowerChar_goUpperChar c)

theorem normalizeQuery_lower (s : String) :
    goToLower (goTrimSuffix (goToLower s) ".") = goToLower (goTrimSuffix s ".") := by
  show goToLower (goTrimSuffix ⟨s.data.map goLowerChar⟩ ".") = _
  rw [trimDot_map goLowerChar goLowerChar_dot_iff]
  unfold goToLower
  apply congrArg String.mk
  rw [List.map_map]
  exact List.map_congr_left (fun c _ => goLowerChar_idem c)

/-- The record data without its owner name: query type, TTL, address. -/
def eraseOwner (r : RR) : QType × Nat × String := (r.rtype, r.ttl, r.rdata)

theorem filterMap_createARecord_eq_map (c : Config) (n : String) (ips : List String)
    (h : ∀ ip ∈ ips, isValidIP ip = true) :
    ips.filterMap (createARecord c n) =
      ips.map (fun ip =>
        { name := n, rtype := QType.A, ttl := uint32OfInt c.dns.ttl, rdata := ip }) := by
  induction ips with
  | nil => rfl
  | cons ip rest ih =>
    have hip := h ip (List.mem_cons_self ip rest)
    have ihr := ih (fun x hx => h x (List.mem_cons_of_mem ip hx))
    simp [List.filterMap_cons, createARecord, hip, ihr]

theorem filterMap_createAAAARecord_eq_map (c : Config) (n : String) (ips : List String)
    (h : ∀ ip ∈ ips, isValidIP ip = true) :
    ips.filterMap (createAAAARecord c n) =
      ips.map (fun ip =>
        { name := n, rtype := QType.AAAA, ttl := uint32OfInt c.dns.ttl, rdata := ip }) := by
  induction ips with
  | nil => rfl
  | cons ip rest ih =>
    have hip := h ip (List.mem_cons_self ip rest)
    have ihr := ih (fun x hx => h x (List.mem_cons_of_mem ip hx))
    simp [List.filterMap_cons, createAAAARecord, hip, ihr]

theorem eraseOwner_filterMap_A (c : Config) (n m : String) (ips : List String) :
    (ips.filterMap (createARecord c n)).map eraseOwner =
    (ips.filterMap (createARecord c m)).map eraseOwner := by
  induction ips with
  | nil => rfl
  | cons ip rest ih =>
    by_cases h : isValidIP ip = true
    · simp [List.filterMap_cons, createARecord, h, eraseOwner, ih]
    · simp [List.filterMap_cons, createARecord, h, ih]

theorem eraseOwner_filterMap_AAAA (c : Config) (n m : String) (ips : List String) :
    (ips.filterMap (createAAAARecord c n)).map eraseOwner =
    (ips.filterMap (createAAAARecord c m)).map eraseOwner := by
  induction ips with
  | nil => rfl
  | cons ip rest ih =>
    by_cases h : isValidIP ip = true
    · simp [List.filterMap_cons, createAAAARecord, h, eraseOwner, ih]
    · simp [List.filterMap_cons, createAAAARecord, h, ih]

/-- The failover notion of §4.4: an upstream attempt fails when the query
errors, returns a nil message, or returns a message with no answer
records (its response code is never inspected). -/
def upstreamFailed : QueryResult → Bool
  | QueryResult.err => true
  | QueryResult.ok none => true
  | QueryResult.ok (some m) => m.answer.isEmpty

theorem forwardAux_all_fail (oracle : UpstreamOracle) (q : Question)
    (us : List UpstreamServer) (h : ∀ v ∈ us, upstreamFailed (oracle v q) = true) :
    forwardUpstreamAux oracle q us = ([], us) := by
  induction us with
  | nil => rfl
  | cons u rest ih =>
    have hu := h u (List.mem_cons_self u rest)
    have ihr := ih (fun v hv => h v (List.mem_cons_of_mem u hv))
    unfold forwardUpstreamAux
    cases hor : oracle u q with
    | err => simp [ihr]
    | ok m =>
      cases m with
      | none => simp [ihr]
      | some msg =>
        rw [hor] at hu
        simp only [upstreamFailed, List.isEmpty_iff] at hu
        simp [hu, ihr]

theorem forwardAux_first_success (oracle : UpstreamOracle) (q : Question)
    (pre : List UpstreamServer) (u : UpstreamServer) (post : List UpstreamServer)
    (m : UpstreamMsg)
    (hpre : ∀ v ∈ pre, upstreamFailed (oracle v q) = true)
    (hu : oracle u q = QueryResult.ok (some m)) (hm : m.answer ≠ []) :
    forwardUpstreamAux oracle q (pre ++ u :: post) = (m.answer, pre ++ [u]) := by
  induction pre with
  | nil =>
    rw [List.nil_append]
    simp only [forwardUpstreamAux]
    rw [hu]
    have hlen : m.answer.length > 0 := List.length_pos.mpr hm
    simp [hlen]
  | cons v rest ih =>
    have hv := hpre v (List.mem_cons_self v rest)
    have ihr := ih (fun w hw => hpre w (List.mem_cons_of_mem v hw))
    rw [List.cons_append]
    simp only [forwardUpstreamAux]
    cases hor : oracle v q with
    | err => simp [ihr]
    | ok mv =>
      cases mv with
      | none => simp [ihr]
      | some msg =>
        rw [hor] at hv
        simp only [upstreamFailed, List.isEmpty_iff] at hv
        simp [hv, ihr]

/-- C1: for every incoming request containing a question whose name
matches a configured blocklist pattern (after lowercasing and stripping
the trailing dot: equal to the pattern, or ending with "." + pattern),
the handler's written response has response code NXDOMAIN (NAME_ERROR),
contains no answer records for that question, has the authoritative bit
set, and no upstream query is issued for that question. -/
theorem blocked_query_nxdomain_no_upstream (c : Config) (oracle : UpstreamOracle)
    (r : DNSRequest) (q : Question) (hq : q ∈ r.questions)
    (hb : IsBlocked c q.name = true) :
    (ServeDNSBlocking c oracle r).rcode = RcodeNameError ∧
    (ServeDNSBlocking c oracle r).authoritative = true ∧
    handleQuestionBlocking c oracle q = (true, [], []) := by
  have hone : handleQuestionBlocking c oracle q = (true, [], []) := by
    simp [handleQuestionBlocking, hb]
  refine ⟨?_, rfl, hone⟩
  unfold ServeDNSBlocking
  simp only
  have hany : (r.questions.map (handleQuestionBlocking c oracle)).any (fun t => t.1) = true := by
    apply List.any_eq_true.mpr
    refine ⟨handleQuestionBlocking c oracle q, List.mem_map_of_mem _ hq, ?_⟩
    rw [hone]
  rw [hany]
  simp

/-- Witness for C1 at a concrete blocklisted query: the blocklist carries
`evil.com`, the question asks for `sub.evil.com.`, and the upstream
oracle would happily answer it. -/
def cfgBlocklist : Config :=
  { server := { port := 8053, address := "127.0.0.1" }
    dns := { ttl := 300, enableRecursion := true, cacheSize := 1000, blockList := ["evil.com"] }
    hosts := []
    upstream := [{ name := "g", address := "8.8.8.8", protocol := "udp", port := 53,
                   path := "", verify := false }]
    logLevel := "info"
    homeDNSDomain := "home" }

/-- An oracle that answers every question with one A record. -/
def oracleAnswering : UpstreamOracle := fun _ q =>
  QueryResult.ok (some
    { rcode := 0
      answer := [{ name := q.name, rtype := QType.A, ttl := 60, rdata := "93.184.216.34" }] })

theorem blocked_query_nxdomain_no_upstream_witness :
    (ServeDNSBlocking cfgBlocklist oracleAnswering
      { id := 42, questions := [{ name := "sub.evil.com.", qtype := QType.A }] }).rcode =
        RcodeNameError ∧
    (ServeDNSBlocking cfgBlocklist oracleAnswering
      { id := 42, questions := [{ name := "sub.evil.com.", qtype := QType.A }] }).authoritative =
        true ∧
    handleQuestionBlocking cfgBlocklist oracleAnswering
      { name := "sub.evil.com.", qtype := QType.A } = (true, [], []) :=
  blocked_query_nxdomain_no_upstream cfgBlocklist oracleAnswering
    { id := 42, questions := [{ name := "sub.evil.com.", qtype := QType.A }] }
    { name := "sub.evil.com.", qtype := QType.A }
    (by decide) (by decide)

/-- C2: for every question forwarded upstream, the handler tries the
configured upstreams in list order and appends exactly the answer
section of the first upstream whose query returns without error,
non-null, and with at least one answer record; an upstream that errors
or returns zero answer records is skipped regardless of its response
code; if every upstream fails or returns empty answers, no answers are
appended for that question and the response code remains NOERROR. -/
theorem forward_first_nonempty_upstream (c : Config) (oracle : UpstreamOracle) (q : Question) :
    (∀ pre u post m, c.upstream = pre ++ u :: post →
      (∀ v ∈ pre, upstreamFailed (oracle v q) = true) →
      oracle u q = QueryResult.ok (some m) → m.answer ≠ [] →
      forwardUpstream c oracle q = m.answer ∧ forwardAttempts c oracle q = pre ++ [u]) ∧
    ((∀ v ∈ c.upstream, upstreamFailed (oracle v q) = true) →
      forwardUpstream c oracle q = [] ∧ forwardAttempts c oracle q = c.upstream) ∧
    (∀ i, (ServeDNS c oracle { id := i, questions := [q] }).rcode = RcodeSuccess) := by
  refine ⟨?_, ?_, fun _ => rfl⟩
  · intro pre u post m hsplit hpre hu hm
    unfold forwardUpstream forwardAttempts
    rw [hsplit, forwardAux_first_success oracle q pre u post m hpre hu hm]
    exact ⟨rfl, rfl⟩
  · intro hall
    unfold forwardUpstream forwardAttempts
    rw [forwardAux_all_fail oracle q c.upstream hall]
    exact ⟨rfl, rfl⟩

/-- The S4 failover scenario: U1 times out, U2 answers with an empty
answer section, U3 answers with one A record. -/
def upstreamU1 : UpstreamServer :=
  { name := "", address := "10.0.0.1", protocol := "udp", port := 53, path := "", verify := false }

def upstreamU2 : UpstreamServer :=
  { name := "", address := "1.1.1.1", protocol := "tls", port := 853, path := "", verify := true }

def upstreamU3 : UpstreamServer :=
  { name := "", address := "8.8.8.8", protocol := "udp", port := 53, path := "", verify := false }

def exampleComRecord : RR :=
  { name := "example.com.", rtype := QType.A, ttl := 60, rdata := "93.184.216.34" }

def oracleS4 : UpstreamOracle := fun u _ =>
  if u = upstreamU1 then QueryResult.err
  else if u = upstreamU2 then QueryResult.ok (some { rcode := 0, answer := [] })
  else QueryResult.ok (some { rcode := 0, answer := [exampleComRecord] })

/-- An oracle for which every upstream attempt errors. -/
def oracleAllFail : UpstreamOracle := fun _ _ => QueryResult.err

def cfgFailover : Config :=
  { server := { port := 8053, address := "127.0.0.1" }
    dns := { ttl := 300, enableRecursion := true, cacheSize := 1000, blockList := [] }
    hosts := []
    upstream := [upstreamU1, upstreamU2, upstreamU3]
    logLevel := "info"
    homeDNSDomain := "home" }

def questionExampleCom : Question := { name := "example.com.", qtype := QType.A }

theorem forward_first_nonempty_upstream_witness :
    (forwardUpstream cfgFailover oracleS4 questionExampleCom = [exampleComRecord] ∧
     forwardAttempts cfgFailover oracleS4 questionExampleCom =
       [upstreamU1, upstreamU2] ++ [upstreamU3]) ∧
    (forwardUpstream cfgFailover oracleAllFail questionExampleCom = [] ∧
     forwardAttempts cfgFailover oracleAllFail questionExampleCom = cfgFailover.upstream) ∧
    (ServeDNS cfgFailover oracleAllFail
      { id := 5, questions := [questionExampleCom] }).rcode = RcodeSuccess :=
  ⟨(forward_first_nonempty_upstream cfgFailover oracleS4 questionExampleCom).1
      [upstreamU1, upstreamU2] upstreamU3 []
      { rcode := 0, answer := [exampleComRecord] }
      (by decide) (by decide) (by decide) (by decide),
   (forward_first_nonempty_upstream cfgFailover oracleAllFail questionExampleCom).2.1
      (by decide),
   (forward_first_nonempty_upstream cfgFailover oracleAllFail questionExampleCom).2.2 5⟩

/-- C5: for every request handled while `dns.enable_recursion` is false
and no local match exists for a question, the handler performs zero
upstream queries for that question and writes a response with response
code NOERROR and an empty answer section. -/
theorem recursion_disabled_no_upstream (c : Config) (oracle : UpstreamOracle)
    (q : Question) (i : Nat)
    (hrec : c.dns.enableRecursion = false) (hlocal : resolveLocally c q = []) :
    handleQuestion c oracle q = ([], []) ∧
    (ServeDNS c oracle { id := i, questions := [q] }).rcode = RcodeSuccess ∧
    (ServeDNS c oracle { id := i, questions := [q] }).answer = [] ∧
    serveAttempts c oracle { id := i, questions := [q] } = [] := by
  have hone : handleQuestion c oracle q = ([], []) := by
    simp [handleQuestion, hlocal, hrec]
  refine ⟨hone, rfl, ?_, ?_⟩
  · simp [ServeDNS, hone]
  · simp [serveAttempts, hone]

def cfgRecursionOff : Config :=
  { server := { port := 8053, address := "127.0.0.1" }
    dns := { ttl := 300, enableRecursion := false, cacheSize := 1000, blockList := [] }
    hosts := []
    upstream := [upstreamU3]
    logLevel := "info"
    homeDNSDomain := "home" }

theorem recursion_disabled_no_upstream_witness :
    handleQuestion cfgRecursionOff oracleAnswering
      { name := "google.com.", qtype := QType.A } = ([], []) ∧
    (ServeDNS cfgRecursionOff oracleAnswering
      { id := 9, questions := [{ name := "google.com.", qtype := QType.A }] }).rcode =
        RcodeSuccess ∧
    (ServeDNS cfgRecursionOff oracleAnswering
      { id := 9, questions := [{ name := "google.com.", qtype := QType.A }] }).answer = [] ∧
    serveAttempts cfgRecursionOff oracleAnswering
      { id := 9, questions := [{ name := "google.com.", qtype := QType.A }] } = [] :=
  recursion_disabled_no_upstream cfgRecursionOff oracleAnswering
    { name := "google.com.", qtype := QType.A } 9 (by decide) (by decide)

/-- The canonical fully qualified form of a configured host's name, as
cache.go computes it when prebuilding records: the normalized hostname,
suffixed with the home domain when it contains no dot, made fully
qualified with `dns.Fqdn`. -/
def canonicalName (cfg : Config) (host : HostEntry) : String :=
  let homeDomain := if cfg.homeDNSDomain = "" then "home" else cfg.homeDNSDomain
  let normalizedName := goToLower (goTrimSuffix host.hostname ".")
  goFqdn (if goContainsChar normalizedName '.' then normalizedName
          else normalizedName ++ "." ++ homeDomain)

def laptopHost : HostEntry := { hostname := "laptop", ipv4 := ["192.168.1.101"], ipv6 := [] }

def cfgLaptop : Config :=
  { server := { port := 8053, address := "127.0.0.1" }
    dns := { ttl := 300, enableRecursion := false, cacheSize := 1000, blockList := [] }
    hosts := [laptopHost]
    upstream := []
    logLevel := "info"
    homeDNSDomain := "home" }

/-- Counterexample to C3 as stated: looking the bare host `laptop` up
under its short name `laptop.` yields an A record owned by the query
name `laptop.`, not by the canonical qualified form `laptop.home.`. -/
theorem local_answer_owner_not_canonical :
    resolveLocally cfgLaptop { name := "laptop.", qtype := QType.A } =
      [{ name := "laptop.", rtype := QType.A, ttl := 300, rdata := "192.168.1.101" }] ∧
    canonicalName cfgLaptop laptopHost = "laptop.home." ∧
    ("laptop." : String) ≠ "laptop.home." := by
  refine ⟨by decide, by decide, by decide⟩

/-- C3 as amended: for every host the query's name resolves to, a type-A
lookup returns exactly one A record per configured IPv4 address, in the
configuration's insertion order, each with TTL `dns.ttl` — but owned by
the query name as asked; the canonical qualified owner appears only on
the prebuilt cache records. -/
theorem local_A_answers_per_ipv4 (c : Config) (N : String) (H : HostEntry)
    (hres : ResolveLocal c (goToLower (goTrimSuffix N ".")) = some H)
    (hips : ∀ ip ∈ H.ipv4, isValidIP ip = true) :
    resolveLocally c { name := N, qtype := QType.A } =
      H.ipv4.map (fun ip =>
        { name := N, rtype := QType.A, ttl := uint32OfInt c.dns.ttl, rdata := ip }) := by
  unfold resolveLocally
  simp only
  rw [hres]
  exact filterMap_createARecord_eq_map c N H.ipv4 hips

theorem local_A_answers_per_ipv4_witness :
    resolveLocally cfgLaptop { name := "laptop.home.", qtype := QType.A } =
      laptopHost.ipv4.map (fun ip =>
        { name := "laptop.home.", rtype := QType.A, ttl := uint32OfInt cfgLaptop.dns.ttl,
          rdata := ip }) :=
  local_A_answers_per_ipv4 cfgLaptop "laptop.home." laptopHost (by decide) (by decide)

def nasLabHost : HostEntry := { hostname := "nas.lab", ipv4 := ["192.168.1.20"], ipv6 := [] }

def cfgNasLab : Config :=
  { server := { port := 8053, address := "127.0.0.1" }
    dns := { ttl := 300, enableRecursion := false, cacheSize := 1000, blockList := [] }
    hosts := [nasLabHost]
    upstream := []
    logLevel := "info"
    homeDNSDomain := "home" }

/-- Counterexample to C4 as stated: with `home_dns_domain = "home"` and
the single host `nas.lab`, a type-A query for `nas.lab.home.` does not
get an empty answer list — the resolver strips the trailing `.home` and
answers with the host's A record. -/
theorem qualified_query_with_suffix_answered :
    (ServeDNS cfgNasLab oracleAllFail
      { id := 1, questions := [{ name := "nas.lab.home.", qtype := QType.A }] }).answer =
      [{ name := "nas.lab.home.", rtype := QType.A, ttl := 300, rdata := "192.168.1.20" }] ∧
    (ServeDNS cfgNasLab oracleAllFail
      { id := 1, questions := [{ name := "nas.lab.home.", qtype := QType.A }] }).answer ≠ [] := by
  refine ⟨by decide, by decide⟩

/-- C4 as amended: the cache index never appends the home suffix to a
hostname that already contains a dot — its host table has no entry for
`nas.lab.home` and its record table no `nas.lab.home:A` records — and a
type-A query for `nas.lab.` returns one A record; but a type-A query for
`nas.lab.home.` returns that record too (rather than an empty answer
list), because `ResolveLocal` retries after stripping a trailing
`.home` from the queried name. -/
theorem qualified_hostname_suffix_handling :
    resolveLocally cfgNasLab { name := "nas.lab.", qtype := QType.A } =
      [{ name := "nas.lab.", rtype := QType.A, ttl := 300, rdata := "192.168.1.20" }] ∧
    resolveLocally cfgNasLab { name := "nas.lab.home.", qtype := QType.A } =
      [{ name := "nas.lab.home.", rtype := QType.A, ttl := 300, rdata := "192.168.1.20" }] ∧
    mapLookup (cacheRebuild cfgNasLab).hosts "nas.lab.home" = none ∧
    LookupRecords (cacheRebuild cfgNasLab) "nas.lab.home." QType.A = [] := by
  refine ⟨by decide, by decide, by decide, by decide⟩

def testHomeHost : HostEntry :=
  { hostname := "test.home", ipv4 := ["192.168.1.100"], ipv6 := [] }

def cfgTestHome : Config :=
  { server := { port := 8053, address := "127.0.0.1" }
    dns := { ttl := 300, enableRecursion := false, cacheSize := 1000, blockList := [] }
    hosts := [testHomeHost]
    upstream := []
    logLevel := "info"
    homeDNSDomain := "home" }

/-- Counterexample to C7 as stated: the answer lists for a name and its
upper-cased form are not equal, because the handler copies the query
name, case included, into the owner field of each answer. -/
theorem lookup_case_owner_differs :
    goToUpper "test.home." = "TEST.HOME." ∧
    resolveLocally cfgTestHome { name := "TEST.HOME.", qtype := QType.A } ≠
      resolveLocally cfgTestHome { name := "test.home.", qtype := QType.A } := by
  refine ⟨by decide, by decide⟩

/-- C7 as amended: local name lookup is case-insensitive in everything
except the owner-name field, which echoes the query's casing — for every
name and query type, the resolved host entry is the same for the name,
its upper-cased and its lower-cased form, and the answer lists agree
record by record on type, TTL and address data. -/
theorem lookup_case_insensitive_up_to_owner (c : Config) (N : String) (t : QType) :
    ResolveLocal c (goToLower (goTrimSuffix (goToUpper N) ".")) =
      ResolveLocal c (goToLower (goTrimSuffix N ".")) ∧
    ResolveLocal c (goToLower (goTrimSuffix (goToLower N) ".")) =
      ResolveLocal c (goToLower (goTrimSuffix N ".")) ∧
    (resolveLocally c { name := goToUpper N, qtype := t }).map eraseOwner =
      (resolveLocally c { name := N, qtype := t }).map eraseOwner ∧
    (resolveLocally c { name := goToLower N, qtype := t }).map eraseOwner =
      (resolveLocally c { name := N, qtype := t }).map eraseOwner := by
  have hU := normalizeQuery_upper N
  have hL := normalizeQuery_lower N
  refine ⟨by rw [hU], by rw [hL], ?_, ?_⟩
  · unfold resolveLocally
    simp only
    rw [hU]
    cases h : ResolveLocal c (goToLower (goTrimSuffix N ".")) with
    | none => simp
    | some host =>
      cases t with
      | A => exact eraseOwner_filterMap_A c (goToUpper N) N host.ipv4
      | AAAA => exact eraseOwner_filterMap_AAAA c (goToUpper N) N host.ipv6
      | ANY =>
        rw [List.map_append, List.map_append,
          eraseOwner_filterMap_A c (goToUpper N) N host.ipv4,
          eraseOwner_filterMap_AAAA c (goToUpper N) N host.ipv6]
      | other code => rfl
  · unfold resolveLocally
    simp only
    rw [hL]
    cases h : ResolveLocal c (goToLower (goTrimSuffix N ".")) with
    | none => simp
    | some host =>
      cases t with
      | A => exact eraseOwner_filterMap_A c (goToLower N) N host.ipv4
      | AAAA => exact eraseOwner_filterMap_AAAA c (goToLower N) N host.ipv6
      | ANY =>
        rw [List.map_append, List.map_append,
          eraseOwner_filterMap_A c (goToLower N) N host.ipv4,
          eraseOwner_filterMap_AAAA c (goToLower N) N host.ipv6]
      | other code => rfl

/-- C9: a question of type ANY for a configured local host returns both
address families in one answer list — the A records for all of the
host's IPv4 addresses, in order, followed by the AAAA records for all of
its IPv6 addresses, in order. -/
theorem any_query_both_families (c : Config) (N : String) (H : HostEntry)
    (hres : ResolveLocal c (goToLower (goTrimSuffix N ".")) = some H)
    (h4 : ∀ ip ∈ H.ipv4, isValidIP ip = true)
    (h6 : ∀ ip ∈ H.ipv6, isValidIP ip = true) :
    resolveLocally c { name := N, qtype := QType.ANY } =
      H.ipv4.map (fun ip =>
        { name := N, rtype := QType.A, ttl := uint32OfInt c.dns.ttl, rdata := ip }) ++
      H.ipv6.map (fun ip =>
        { name := N, rtype := QType.AAAA, ttl := uint32OfInt c.dns.ttl, rdata := ip }) := by
  unfold resolveLocally
  simp only
  rw [hres]
  simp only
  rw [filterMap_createARecord_eq_map c N H.ipv4 h4,
    filterMap_createAAAARecord_eq_map c N H.ipv6 h6]

def dualStackHost : HostEntry :=
  { hostname := "laptop", ipv4 := ["192.168.1.101"],
    ipv6 := ["fe80::1234:5678:90ab:cdef", "2001:db8::1"] }

def cfgDualStack : Config :=
  { server := { port := 8053, address := "127.0.0.1" }
    dns := { ttl := 300, enableRecursion := false, cacheSize := 1000, blockList := [] }
    hosts := [dualStackHost]
    upstream := []
    logLevel := "info"
    homeDNSDomain := "home" }

theorem any_query_both_families_witness :
    resolveLocally cfgDualStack { name := "laptop.home.", qtype := QType.ANY } =
      dualStackHost.ipv4.map (fun ip =>
        { name := "laptop.home.", rtype := QType.A, ttl := uint32OfInt cfgDualStack.dns.ttl,
          rdata := ip }) ++
      dualStackHost.ipv6.map (fun ip =>
        { name := "laptop.home.", rtype := QType.AAAA, ttl := uint32OfInt cfgDualStack.dns.ttl,
          rdata := ip }) :=
  any_query_both_families cfgDualStack "laptop.home." dualStackHost
    (by decide) (by decide) (by decide)

/-- C10: `LoadConfig` on a path that does not exist returns the non-nil
default configuration together with a not-found error, whereas every
other failure mode (unreadable file, YAML parse error, validation error)
returns no configuration with the error; a valid file returns the
validated configuration and no error. -/
theorem loadconfig_missing_file_default :
    LoadConfig FileOutcome.absent = (some DefaultConfig, some LoadError.notFound) ∧
    LoadConfig FileOutcome.unreadable = (none, some LoadError.readFailed) ∧
    LoadConfig (FileOutcome.content YamlOutcome.malformed) = (none, some LoadError.parseFailed) ∧
    (∀ c e, Validate c = Except.error e →
      LoadConfig (FileOutcome.content (YamlOutcome.parsed c)) =
        (none, some (LoadError.invalid e))) ∧
    (∀ c c', Validate c = Except.ok c' →
      LoadConfig (FileOutcome.content (YamlOutcome.parsed c)) = (some c', none)) := by
  refine ⟨rfl, rfl, rfl, ?_, ?_⟩
  · intro c e h
    simp [LoadConfig, h]
  · intro c c' h
    simp [LoadConfig, h]

/-- A configuration whose server port fails validation. -/
def cfgBadPort : Config :=
  { server := { port := 0, address := "127.0.0.1" }
    dns := { ttl := 300, enableRecursion := true, cacheSize := 1000, blockList := [] }
    hosts := []
    upstream := []
    logLevel := "info"
    homeDNSDomain := "home" }

/-- A minimal configuration that passes validation unchanged. -/
def cfgMinimalOk : Config :=
  { server := { port := 8053, address := "127.0.0.1" }
    dns := { ttl := 300, enableRecursion := true, cacheSize := 1000, blockList := [] }
    hosts := []
    upstream := []
    logLevel := "info"
    homeDNSDomain := "home" }

theorem loadconfig_missing_file_default_witness :
    LoadConfig (FileOutcome.content (YamlOutcome.parsed cfgBadPort)) =
      (none, some (LoadError.invalid "invalid port: 0 (must be 1-65535)")) ∧
    LoadConfig (FileOutcome.content (YamlOutcome.parsed cfgMinimalOk)) =
      (some cfgMinimalOk, none) :=
  ⟨loadconfig_missing_file_default.2.2.2.1 cfgBadPort
      "invalid port: 0 (must be 1-65535)" rfl,
   loadconfig_missing_file_default.2.2.2.2 cfgMinimalOk cfgMinimalOk rfl⟩

/-- C8: upstream DNS clients are pooled keyed by the composite
(protocol, address, port): repeated lookups return the identical client,
the client is created at most once (the second lookup leaves the pool
unchanged), existing pool entries are never modified, and any upstream
with the same protocol, address and port maps to the same pooled
client. -/
theorem client_pool_idempotent (pool : ClientPool) (u : UpstreamServer) :
    (getOrCreateClient (getOrCreateClient pool u).2 u).1 = (getOrCreateClient pool u).1 ∧
    (getOrCreateClient (getOrCreateClient pool u).2 u).2 = (getOrCreateClient pool u).2 ∧
    poolFind (getOrCreateClient pool u).2 (clientKey u) = some (getOrCreateClient pool u).1 ∧
    (∀ k cl, poolFind pool k = some cl →
      poolFind (getOrCreateClient pool u).2 k = some cl) ∧
    (∀ u', u'.protocol = u.protocol → u'.address = u.address → u'.port = u.port →
      getOrCreateClient (getOrCreateClient pool u).2 u' =
        ((getOrCreateClient pool u).1, (getOrCreateClient pool u).2)) := by
  have hkey : ∀ u' : UpstreamServer, u'.protocol = u.protocol → u'.address = u.address →
      u'.port = u.port → clientKey u' = clientKey u := by
    intro u' h1 h2 h3
    unfold clientKey
    rw [h1, h2, h3]
  cases hf : poolFind pool (clientKey u) with
  | some cl =>
    have hg : getOrCreateClient pool u = (cl, pool) := by
      unfold getOrCreateClient
      simp only
      rw [hf]
    rw [hg]
    have hrepeat : getOrCreateClient pool u = (cl, pool) := hg
    refine ⟨?_, ?_, ?_, ?_, ?_⟩
    · rw [hg]
    · rw [hg]
    · exact hf
    · intro k c hk
      exact hk
    · intro u' h1 h2 h3
      unfold getOrCreateClient
      simp only
      rw [hkey u' h1 h2 h3, hf]
  | none =>
    have hfl : pool.find? (fun p => p.1 == clientKey u) = none := by
      unfold poolFind at hf
      exact Option.map_eq_none.mp hf
    have hg : getOrCreateClient pool u =
        (newDNSClient u, pool ++ [(clientKey u, newDNSClient u)]) := by
      unfold getOrCreateClient
      simp only
      rw [hf]
    rw [hg]
    have hfind : poolFind (pool ++ [(clientKey u, newDNSClient u)]) (clientKey u) =
        some (newDNSClient u) := by
      unfold poolFind
      rw [List.find?_append, hfl]
      simp
    refine ⟨?_, ?_, hfind, ?_, ?_⟩
    · unfold getOrCreateClient
      simp only
      rw [hfind]
    · unfold getOrCreateClient
      simp only
      rw [hfind]
    · intro k c hk
      unfold poolFind at hk ⊢
      cases hks : pool.find? (fun p => p.1 == k) with
      | none => rw [hks] at hk; simp at hk
      | some entry =>
        rw [hks] at hk
        rw [List.find?_append, hks]
        simpa using hk
    · intro u' h1 h2 h3
      unfold getOrCreateClient
      simp only
      rw [hkey u' h1 h2 h3, hfind]

/-- An upstream agreeing with `upstreamU2` on protocol, address and port
but not on certificate verification. -/
def upstreamU2NoVerify : UpstreamServer :=
  { name := "alt", address := "1.1.1.1", protocol := "tls", port := 853, path := "", verify := false }

theorem client_pool_idempotent_witness :
    (getOrCreateClient (getOrCreateClient [] upstreamU2).2 upstreamU2).1 =
      (getOrCreateClient [] upstreamU2).1 ∧
    (getOrCreateClient (getOrCreateClient [] upstreamU2).2 upstreamU2).2 =
      (getOrCreateClient [] upstreamU2).2 ∧
    poolFind (getOrCreateClient [] upstreamU2).2 (clientKey upstreamU2) =
      some (getOrCreateClient [] upstreamU2).1 ∧
    getOrCreateClient (getOrCreateClient [] upstreamU2).2 upstreamU2NoVerify =
      ((getOrCreateClient [] upstreamU2).1, (getOrCreateClient [] upstreamU2).2) :=
  ⟨(client_pool_idempotent [] upstreamU2).1,
   (client_pool_idempotent [] upstreamU2).2.1,
   (client_pool_idempotent [] upstreamU2).2.2.1,
   (client_pool_idempotent [] upstreamU2).2.2.2.2 upstreamU2NoVerify rfl rfl rfl⟩

theorem firstInvalidIP_eq_none (ips : List String) :
    firstInvalidIP ips = none ↔ ∀ ip ∈ ips, isValidIP ip = true := by
  induction ips with
  | nil => simp [firstInvalidIP]
  | cons ip rest ih =>
    by_cases h : isValidIP ip = true
    · simp [firstInvalidIP, h, ih]
    · simp [firstInvalidIP, h]

theorem validateUpstreams_ok_spec :
    ∀ (us : List UpstreamServer) (i : Nat) (l : List UpstreamServer),
      validateUpstreams i us = Except.ok l →
      l = us.map normalizeUpstream ∧ ∀ u ∈ us, u.protocol ∈ validProtocols := by
  intro us
  induction us with
  | nil =>
    intro i l h
    simp only [validateUpstreams] at h
    cases h
    exact ⟨rfl, fun u hu => absurd hu (List.not_mem_nil u)⟩
  | cons u rest ih =>
    intro i l h
    simp only [validateUpstreams] at h
    by_cases ha : u.address = ""
    · rw [if_pos ha] at h
      cases h
    · rw [if_neg ha] at h
      by_cases hp : validProtocols.contains u.protocol = true
      · rw [if_neg (not_not_intro hp)] at h
        cases hvr : validateUpstreams (i + 1) rest with
        | error e => rw [hvr] at h; cases h
        | ok rest' =>
          rw [hvr] at h
          cases h
          obtain ⟨h1, h2⟩ := ih (i + 1) rest' hvr
          constructor
          · simp [h1]
          · intro v hv
            rcases List.mem_cons.mp hv with rfl | hv'
            · exact List.elem_iff.mp hp
            · exact h2 v hv'
      · rw [if_pos hp] at h
        cases h

theorem validateHosts_ok_spec :
    ∀ (hs : List HostEntry) (i : Nat), validateHosts i hs = Except.ok () →
      ∀ h ∈ hs, (∀ ip ∈ h.ipv4, isValidIP ip = true) ∧
        (∀ ip ∈ h.ipv6, isValidIP ip = true) ∧ ¬ (h.ipv4 = [] ∧ h.ipv6 = []) := by
  intro hs
  induction hs with
  | nil =>
    intro i hok h hmem
    cases hmem
  | cons e rest ih =>
    intro i hok h hmem
    simp only [validateHosts] at hok
    by_cases hname : e.hostname = ""
    · rw [if_pos hname] at hok; cases hok
    · rw [if_neg hname] at hok
      cases hf4 : firstInvalidIP e.ipv4 with
      | some ip => rw [hf4] at hok; cases hok
      | none =>
        rw [hf4] at hok
        cases hf6 : firstInvalidIP e.ipv6 with
        | some ip => rw [hf6] at hok; cases hok
        | none =>
          rw [hf6] at hok
          by_cases hempty : e.ipv4 = [] ∧ e.ipv6 = []
          · rw [if_pos hempty] at hok; cases hok
          · rw [if_neg hempty] at hok
            rcases List.mem_cons.mp hmem with rfl | hmem'
            · exact ⟨(firstInvalidIP_eq_none h.ipv4).mp hf4,
                (firstInvalidIP_eq_none h.ipv6).mp hf6, hempty⟩
            · exact ih (i + 1) hok h hmem'

theorem Validate_ok_inv (c c' : Config) (h : Validate c = Except.ok c') :
    c' = { c with upstream := c.upstream.map normalizeUpstream } ∧
    (∀ u ∈ c.upstream, u.protocol ∈ validProtocols) ∧
    (∀ hst ∈ c.hosts, (∀ ip ∈ hst.ipv4, isValidIP ip = true) ∧
      (∀ ip ∈ hst.ipv6, isValidIP ip = true) ∧ ¬ (hst.ipv4 = [] ∧ hst.ipv6 = [])) ∧
    ¬ (c.server.port < 1 ∨ c.server.port > 65535) ∧
    (isValidIP c.server.address = true ∨ c.server.address = "0.0.0.0") ∧
    c.logLevel ∈ validLogLevels := by
  unfold Validate at h
  by_cases hport : c.server.port < 1 ∨ c.server.port > 65535
  · rw [if_pos hport] at h; cases h
  · rw [if_neg hport] at h
    by_cases haddr : ¬ isValidIP c.server.address ∧ c.server.address ≠ "0.0.0.0"
    · rw [if_pos haddr] at h; cases h
    · rw [if_neg haddr] at h
      cases hvu : validateUpstreams 0 c.upstream with
      | error e => rw [hvu] at h; cases h
      | ok ups =>
        rw [hvu] at h
        cases hvh : validateHosts 0 c.hosts with
        | error e => rw [hvh] at h; cases h
        | ok uu =>
          rw [hvh] at h
          simp only at h
          by_cases hll : validLogLevels.contains c.logLevel = true
          · rw [if_pos hll] at h
            cases h
            obtain ⟨h1, h2⟩ := validateUpstreams_ok_spec c.upstream 0 ups hvu
            refine ⟨by rw [h1], h2, validateHosts_ok_spec c.hosts 0 hvh, hport, ?_,
              List.elem_iff.mp hll⟩
            rcases Classical.em (isValidIP c.server.address = true) with hv | hv
            · exact Or.inl hv
            · rcases Classical.em (c.server.address = "0.0.0.0") with hz | hz
              · exact Or.inr hz
              · exact absurd ⟨hv, hz⟩ haddr
          · rw [if_neg hll] at h
            cases h

/-- A configuration exercising the `quic` protocol, otherwise valid. -/
def cfgQuic : Config :=
  { server := { port := 8053, address := "127.0.0.1" }
    dns := { ttl := 300, enableRecursion := true, cacheSize := 1000, blockList := [] }
    hosts := []
    upstream := [{ name := "q", address := "9.9.9.9", protocol := "quic", port := 0,
                   path := "", verify := true }]
    logLevel := "info"
    homeDNSDomain := "home" }

/-- Counterexample to C6 as stated: validation also accepts the fifth
protocol string `quic` (and assigns it default port 853), so it does not
reject every protocol other than udp, tcp, tls and https. -/
theorem validate_accepts_quic :
    (Validate cfgQuic).isOk = true ∧
    cfgQuic.upstream.map (fun u => u.protocol) = ["quic"] ∧
    "quic" ∉ (["udp", "tcp", "tls", "https"] : List String) ∧
    Validate cfgQuic =
      Except.ok { cfgQuic with upstream :=
        [{ name := "q", address := "9.9.9.9", protocol := "quic", port := 853,
           path := "", verify := true }] } := by
  refine ⟨by decide, by decide, by decide, rfl⟩

/-- C6 as amended: config validation accepts exactly the five upstream
protocols udp, tcp, tls, https and quic, rejecting any other protocol
string; on success the returned configuration differs only in the
upstream list, where every upstream with an omitted port (0) is assigned
the protocol-derived default (udp/tcp 53, tls 853, https 443, quic 853)
and every https upstream with an empty path is assigned /dns-query; and
validation errors on a server port outside 1-65535, an invalid server
IP literal, a host entry with an invalid address or with no addresses,
and an invalid log level. -/
theorem validate_protocols_defaults_errors (c : Config) :
    (∀ c', Validate c = Except.ok c' →
      c' = { c with upstream := c.upstream.map normalizeUpstream } ∧
      ∀ u ∈ c.upstream, u.protocol ∈ validProtocols) ∧
    ((c.server.port < 1 ∨ c.server.port > 65535) → (Validate c).isOk = false) ∧
    ((isValidIP c.server.address = false ∧ c.server.address ≠ "0.0.0.0") →
      (Validate c).isOk = false) ∧
    ((∃ u ∈ c.upstream, u.protocol ∉ validProtocols) → (Validate c).isOk = false) ∧
    ((∃ h ∈ c.hosts, h.ipv4 = [] ∧ h.ipv6 = []) → (Validate c).isOk = false) ∧
    ((∃ h ∈ c.hosts, ∃ ip, (ip ∈ h.ipv4 ∨ ip ∈ h.ipv6) ∧ isValidIP ip = false) →
      (Validate c).isOk = false) ∧
    (c.logLevel ∉ validLogLevels → (Validate c).isOk = false) := by
  have hfalse : (∀ c', Validate c = Except.ok c' → False) → (Validate c).isOk = false := by
    intro h
    cases hv : Validate c with
    | error e => rfl
    | ok c' => exact False.elim (h c' hv)
  refine ⟨fun c' hok => Validate_ok_inv c c' hok |>.imp id (fun t => t.1), ?_, ?_, ?_, ?_, ?_, ?_⟩
  · intro hbad
    apply hfalse
    intro c' hok
    exact (Validate_ok_inv c c' hok).2.2.2.1 hbad
  · intro hbad
    apply hfalse
    intro c' hok
    rcases (Validate_ok_inv c c' hok).2.2.2.2.1 with hv | hz
    · rw [hbad.1] at hv; cases hv
    · exact hbad.2 hz
  · intro hbad
    apply hfalse
    intro c' hok
    obtain ⟨u, hu, hp⟩ := hbad
    exact hp ((Validate_ok_inv c c' hok).2.1 u hu)
  · intro hbad
    apply hfalse
    intro c' hok
    obtain ⟨hst, hh, he⟩ := hbad
    exact ((Validate_ok_inv c c' hok).2.2.1 hst hh).2.2 he
  · intro hbad
    apply hfalse
    intro c' hok
    obtain ⟨hst, hh, ip, hip, hinv⟩ := hbad
    obtain ⟨h4, h6, _⟩ := (Validate_ok_inv c c' hok).2.2.1 hst hh
    rcases hip with hip4 | hip6
    · rw [h4 ip hip4] at hinv; cases hinv
    · rw [h6 ip hip6] at hinv; cases hinv
  · intro hbad
    apply hfalse
    intro c' hok
    exact hbad (Validate_ok_inv c c' hok).2.2.2.2.2

/-- The four-protocol default-assignment scenario from
TestConfigValidateUpstreamDefaults: all ports omitted. -/
def cfgDefaults4 : Config :=
  { server := { port := 8053, address := "127.0.0.1" }
    dns := { ttl := 300, enableRecursion := true, cacheSize := 1000, blockList := [] }
    hosts := []
    upstream :=
      [ { name := "", address := "1.1.1.1", protocol := "udp", port := 0, path := "", verify := true }
      , { name := "", address := "8.8.8.8", protocol := "tcp", port := 0, path := "", verify := true }
      , { name := "", address := "9.9.9.9", protocol := "tls", port := 0, path := "", verify := true }
      , { name := "", address := "cloudflare-dns.com", protocol := "https", port := 0,
          path := "", verify := true } ]
    logLevel := "info"
    homeDNSDomain := "home" }

def cfgBadAddr : Config := { cfgMinimalOk with server := { port := 8053, address := "invalid-ip" } }

def cfgBadProto : Config :=
  { cfgMinimalOk with upstream :=
      [{ name := "", address := "1.1.1.1", protocol := "invalid", port := 53,
         path := "", verify := false }] }

def cfgHostNoAddr : Config :=
  { cfgMinimalOk with hosts := [{ hostname := "test.home", ipv4 := [], ipv6 := [] }] }

def cfgHostBadIP : Config :=
  { cfgMinimalOk with hosts := [{ hostname := "test.home", ipv4 := ["invalid-ip"], ipv6 := [] }] }

def cfgBadLog : Config := { cfgMinimalOk with logLevel := "bogus" }

theorem validate_protocols_defaults_errors_witness :
    ({ cfgDefaults4 with upstream := cfgDefaults4.upstream.map normalizeUpstream } =
        { cfgDefaults4 with upstream := cfgDefaults4.upstream.map normalizeUpstream } ∧
      ∀ u ∈ cfgDefaults4.upstream, u.protocol ∈ validProtocols) ∧
    (Validate cfgBadPort).isOk = false ∧
    (Validate cfgBadAddr).isOk = false ∧
    (Validate cfgBadProto).isOk = false ∧
    (Validate cfgHostNoAddr).isOk = false ∧
    (Validate cfgHostBadIP).isOk = false ∧
    (Validate cfgBadLog).isOk = false :=
  ⟨(validate_protocols_defaults_errors cfgDefaults4).1
      { cfgDefaults4 with upstream := cfgDefaults4.upstream.map normalizeUpstream } rfl,
   (validate_protocols_defaults_errors cfgBadPort).2.1 (by decide),
   (validate_protocols_defaults_errors cfgBadAddr).2.2.1 (by decide),
   (validate_protocols_defaults_errors cfgBadProto).2.2.2.1 (by decide),
   (validate_protocols_defaults_errors cfgHostNoAddr).2.2.2.2.1 (by decide),
   (validate_protocols_defaults_errors cfgHostBadIP).2.2.2.2.2.1
     ⟨{ hostname := "test.home", ipv4 := ["invalid-ip"], ipv6 := [] }, by decide,
      "invalid-ip", Or.inl (by decide), by decide⟩,
   (validate_protocols_defaults_errors cfgBadLog).2.2.2.2.2.2 (by decide)⟩

end PocketConcierge
